import Mathlib

/-!
Verification of the CapitalSense engine (`src/app/engine.py`).

The engine is a pure arithmetic library over Python floats; the shallow
embedding models floats as exact rationals (ℚ).  Python code that can raise
`ZeroDivisionError` is modelled with `Option`-returning variants built on
`checkedDiv` (`none` = the exception); code whose divisions are structurally
guarded is modelled with total ℚ division, and a `Checked` mirror proves the
guard is in fact sufficient.  The Monte Carlo sampler (`np.random.uniform`)
is modelled by passing the sampled `(growth, inflation)` pairs explicitly as
a list, one pair per trial, so that statements quantify over every possible
sample sequence.  The human-readable reason strings of `pivot_score` carry
formatted numbers that no claim depends on; they are abstracted to tags of
an inductive type `Reason`, one per source string.
-/

namespace CapitalSense

/-- The `Inputs` dataclass of `engine.py` (all currency/rate fields are
floats, modelled as ℚ; `team_size` and `planned_hires` are Python ints). -/
structure Inputs where
  cash_on_hand : ℚ
  monthly_revenue : ℚ
  monthly_fixed_costs : ℚ
  monthly_variable_costs : ℚ
  team_size : ℤ
  avg_fully_loaded_cost_per_employee : ℚ
  revenue_growth_rate_mom : ℚ
  planned_hires : ℤ := 0
deriving DecidableEq

/-- `monthly_total_cost`: fixed + variable + (team_size + planned_hires) * avg cost. -/
def monthly_total_cost (inp : Inputs) : ℚ :=
  let payroll := ((inp.team_size + inp.planned_hires : ℤ) : ℚ) *
    inp.avg_fully_loaded_cost_per_employee
  inp.monthly_fixed_costs + inp.monthly_variable_costs + payroll

/-- The `runway_months` field of the metrics dict is either the string
sentinel "infinite (profitable or break-even)" or a float; modelled as a
tagged variant. -/
inductive Runway where
  | infinite
  | finite (months : ℚ)
deriving DecidableEq

/-- The dict returned by `burn_and_runway`. -/
structure Metrics where
  monthly_cost : ℚ
  net_burn : ℚ
  runway_months : Runway
  runway_months_numeric : ℚ
deriving DecidableEq

/-- `burn_and_runway` (engine.py lines 25-40).  The division
`cash_on_hand / net_burn` only happens in the branch where `net_burn > 0`;
`burn_and_runwayChecked` below shows the guard makes it safe. -/
def burn_and_runway (inp : Inputs) : Metrics :=
  let cost := monthly_total_cost inp
  let net_burn := cost - inp.monthly_revenue
  if net_burn ≤ 0 then
    { monthly_cost := cost, net_burn := net_burn,
      runway_months := .infinite, runway_months_numeric := -1 }
  else
    { monthly_cost := cost, net_burn := net_burn,
      runway_months := .finite (inp.cash_on_hand / net_burn),
      runway_months_numeric := inp.cash_on_hand / net_burn }

/-- Python float division, which raises `ZeroDivisionError` on a zero
divisor: `none` models the exception. -/
def checkedDiv (a b : ℚ) : Option ℚ :=
  if b = 0 then none else some (a / b)

/-- `burn_and_runway` with the division made explicitly checked, to reason
about `ZeroDivisionError`. -/
def burn_and_runwayChecked (inp : Inputs) : Option Metrics :=
  let cost := monthly_total_cost inp
  let net_burn := cost - inp.monthly_revenue
  if net_burn ≤ 0 then
    some { monthly_cost := cost, net_burn := net_burn,
           runway_months := .infinite, runway_months_numeric := -1 }
  else
    (checkedDiv inp.cash_on_hand net_burn).map fun r =>
      { monthly_cost := cost, net_burn := net_burn,
        runway_months := .finite r, runway_months_numeric := r }

/-- The body of the `for _ in range(months)` loop of `simulate_cash_curve`:
produces the `months` balances appended after the initial one. -/
def simulate_steps (growth_mom cost_infl_mom : ℚ) : ℚ → ℚ → ℚ → ℕ → List ℚ
  | _, _, _, 0 => []
  | cash, rev, cost, months + 1 =>
    let cash2 := cash - (cost - rev)
    cash2 :: simulate_steps growth_mom cost_infl_mom cash2
      (rev * (1 + growth_mom)) (cost * (1 + cost_infl_mom)) months

/-- `simulate_cash_curve` (engine.py lines 43-62): the curve starts with
`cash0` and each of `months` steps subtracts `(cost - rev)` and then
compounds `rev` and `cost`. -/
def simulate_cash_curve (cash0 rev0 cost0 growth_mom cost_infl_mom : ℚ)
    (months : ℕ) : List ℚ :=
  cash0 :: simulate_steps growth_mom cost_infl_mom cash0 rev0 cost0 months

/-- Python `min` over a list (the curves it is applied to are nonempty;
the `[]` case is an arbitrary default). -/
def listMin : List ℚ → ℚ
  | [] => 0
  | x :: xs => xs.foldl min x

/-- One entry of the list returned by `scenario_analysis`. -/
structure Scenario where
  name : String
  growth_mom : ℚ
  cost_inflation_mom : ℚ
  cash_curve : List ℚ
  cash_end : ℚ
  min_cash : ℚ
  goes_negative : Bool
deriving DecidableEq

/-- `scenario_analysis` (engine.py lines 65-95): three named
growth/inflation settings, each run through `simulate_cash_curve` from
current cash and the once-computed monthly cost. -/
def scenario_analysis (inp : Inputs) (months : ℕ) : List Scenario :=
  let base_cost := monthly_total_cost inp
  let g := inp.revenue_growth_rate_mom
  [("optimistic", g * 1.25, (0.01 : ℚ)),
   ("base", g, 0.02),
   ("pessimistic", g * 0.60, 0.04)].map fun s =>
    let curve := simulate_cash_curve inp.cash_on_hand inp.monthly_revenue
      base_cost s.2.1 s.2.2 months
    let min_cash := listMin curve
    { name := s.1, growth_mom := s.2.1, cost_inflation_mom := s.2.2,
      cash_curve := curve, cash_end := curve.getLastD 0,
      min_cash := min_cash, goes_negative := decide (min_cash < 0) }

/-- Per-trial running state of the Monte Carlo loop (engine.py lines
110-131): running cash/revenue/cost, the 1-based first month at which cash
went negative (if any), and whether break-even was reached. -/
structure MCState where
  cash : ℚ
  rev : ℚ
  cost : ℚ
  first_neg : Option ℕ
  hit_break_even : Bool
deriving DecidableEq

/-- One iteration of the `for m in range(1, months + 1)` loop of a Monte
Carlo trial: update cash, record first negative month and break-even, then
compound revenue and cost. -/
def mc_step (g infl : ℚ) (s : MCState) (m : ℕ) : MCState :=
  let cash := s.cash - (s.cost - s.rev)
  { cash := cash
    rev := s.rev * (1 + g)
    cost := s.cost * (1 + infl)
    first_neg := if s.first_neg = none ∧ cash < 0 then some m else s.first_neg
    hit_break_even := s.hit_break_even || decide (s.rev - s.cost ≥ 0) }

/-- One full Monte Carlo trial at sampled growth `g` and inflation `infl`. -/
def run_trial (inp : Inputs) (months : ℕ) (g infl : ℚ) : MCState :=
  (List.range' 1 months).foldl (mc_step g infl)
    { cash := inp.cash_on_hand, rev := inp.monthly_revenue,
      cost := monthly_total_cost inp, first_neg := none,
      hit_break_even := false }

/-- `first_neg is not None and first_neg ≤ k`. -/
def neg_within (t : MCState) (k : ℕ) : Bool :=
  match t.first_neg with
  | some m => decide (m ≤ k)
  | none => false

/-- The dict returned by `monte_carlo_risk`. -/
structure RiskSummary where
  runs : ℚ
  p_cash_negative_within_horizon : ℚ
  p_cash_negative_within_6_months : ℚ
  p_cash_negative_within_3_months : ℚ
  p_break_even_within_horizon : ℚ
deriving DecidableEq

/-- `monte_carlo_risk` (engine.py lines 98-149), with the
`np.random.uniform` draws supplied explicitly: `samples` holds one
`(growth, inflation)` pair per trial, so `runs = samples.length`.  The
four aggregate fractions all divide by `runs` (ℚ division; the checked
mirror below handles `runs = 0`). -/
def monte_carlo_risk (inp : Inputs) (months : ℕ) (samples : List (ℚ × ℚ)) :
    RiskSummary :=
  let runs : ℚ := samples.length
  let trials := samples.map fun p => run_trial inp months p.1 p.2
  let went_negative := trials.countP fun t => t.first_neg.isSome
  let neg_within_6 := trials.countP fun t => neg_within t 6
  let neg_within_3 := trials.countP fun t => neg_within t 3
  let break_even_within_horizon := trials.countP fun t => t.hit_break_even
  { runs := runs
    p_cash_negative_within_horizon := (went_negative : ℚ) / runs
    p_cash_negative_within_6_months := (neg_within_6 : ℚ) / runs
    p_cash_negative_within_3_months := (neg_within_3 : ℚ) / runs
    p_break_even_within_horizon := (break_even_within_horizon : ℚ) / runs }

/-- `monte_carlo_risk` with its divisions by `runs` made checked: with
zero trials every aggregate division of the source raises. -/
def monte_carlo_riskChecked (inp : Inputs) (months : ℕ)
    (samples : List (ℚ × ℚ)) : Option RiskSummary :=
  if samples.length = 0 then none
  else some (monte_carlo_risk inp months samples)

/-- The `resulting_runway_months` field of `safe_hires_suggestion` is one
of the strings "unknown" and "infinite" or a float. -/
inductive RunwayMark where
  | unknown
  | infinite
  | finite (months : ℚ)
deriving DecidableEq

/-- The dict returned by `safe_hires_suggestion` (`safe_hires_now` is
returned as `float(best)` in the source; the value is the same). -/
structure HiresSuggestion where
  min_required_runway_months : ℚ
  safe_hires_now : ℕ
  resulting_runway_months : RunwayMark
deriving DecidableEq

/-- The body of the `for hires in range(0, 21)` loop of
`safe_hires_suggestion`: rebuild the inputs with `planned_hires = hires`,
and overwrite the best candidate when `runway_months_numeric < 0`
(recording "infinite") or when the numeric runway meets the threshold. -/
def hires_step (inp : Inputs) (min_runway_months : ℚ) (acc : ℕ × RunwayMark)
    (hires : ℕ) : ℕ × RunwayMark :=
  let test := { inp with planned_hires := (hires : ℤ) }
  let metrics := burn_and_runway test
  let runway_num := metrics.runway_months_numeric
  if runway_num < 0 then (hires, .infinite)
  else if min_runway_months ≤ runway_num then (hires, .finite runway_num)
  else acc

/-- `safe_hires_suggestion` (engine.py lines 152-174). -/
def safe_hires_suggestion (inp : Inputs) (min_runway_months : ℚ) :
    HiresSuggestion :=
  let best := (List.range 21).foldl (hires_step inp min_runway_months)
    (0, .unknown)
  { min_required_runway_months := min_runway_months
    safe_hires_now := best.1
    resulting_runway_months := best.2 }

/-- The dict returned by `revenue_sensitivity`. -/
structure Sensitivity where
  target_runway_months : ℚ
  extra_monthly_revenue_needed_for_target_runway : ℚ
  monthly_revenue_needed_for_break_even : ℚ
  status : String
deriving DecidableEq

/-- `revenue_sensitivity` (engine.py lines 177-197).  The division
`cash_on_hand / target_runway_months` is reached whenever `net_burn > 0`
and is unguarded in the source, so the embedding is `Option`-valued:
`none` models the `ZeroDivisionError` raised when the target is zero. -/
def revenue_sensitivity (inp : Inputs) (target_runway_months : ℚ) :
    Option Sensitivity :=
  let cost := monthly_total_cost inp
  let net_burn := cost - inp.monthly_revenue
  if net_burn ≤ 0 then
    some { target_runway_months := target_runway_months
           extra_monthly_revenue_needed_for_target_runway := 0
           monthly_revenue_needed_for_break_even := cost
           status := "Already break-even/profitable" }
  else
    (checkedDiv inp.cash_on_hand target_runway_months).map fun net_burn_target =>
      { target_runway_months := target_runway_months
        extra_monthly_revenue_needed_for_target_runway :=
          max 0 (net_burn - net_burn_target)
        monthly_revenue_needed_for_break_even := cost
        status := "Burning cash" }

/-- Tags for the formatted reason strings appended by `pivot_score`, in
source order. -/
inductive Reason where
  | high_risk_6m
  | longer_horizon_risk
  | high_burn_vs_revenue
  | low_break_even_probability
  | low_growth
  | moderate_low_default
deriving DecidableEq

/-- The dict returned by `pivot_score`. -/
structure PivotResult where
  pivot_score : ℚ
  reasons : List Reason
deriving DecidableEq

/-- `pivot_score` (engine.py lines 200-238): weighted additive score
clamped above at 100, with a reason tag per triggered condition and a
default reason when none triggered.  The division `net_burn / revenue` is
only evaluated when `revenue > 0`. -/
def pivot_score (inp : Inputs) (risk : RiskSummary) (metrics : Metrics) :
    PivotResult :=
  let p6 := risk.p_cash_negative_within_6_months
  let p12 := risk.p_cash_negative_within_horizon
  let pbe := risk.p_break_even_within_horizon
  let net_burn := metrics.net_burn
  let revenue := inp.monthly_revenue
  let br := if revenue ≤ 0 then 0 else max 0 (net_burn / revenue)
  let score1 : ℚ := 60 * p6
  let reasons1 : List Reason := if 0.4 < p6 then [.high_risk_6m] else []
  let score2 := score1 + 25 * p12
  let reasons2 := reasons1 ++ (if 0.5 < p12 then [.longer_horizon_risk] else [])
  let score3 := score2 + min 25 (15 * br)
  let reasons3 := reasons2 ++ (if 0.5 < br then [.high_burn_vs_revenue] else [])
  let score4 := score3 + (if pbe < 0.25 then (10 : ℚ) else 0)
  let reasons4 := reasons3 ++
    (if pbe < 0.25 then [.low_break_even_probability] else [])
  let score5 := score4 +
    (if inp.revenue_growth_rate_mom < 0.03 then (8 : ℚ) else 0)
  let reasons5 := reasons4 ++
    (if inp.revenue_growth_rate_mom < 0.03 then [.low_growth] else [])
  let score := min 100 score5
  { pivot_score := score
    reasons := if reasons5 = [] then [.moderate_low_default] else reasons5 }

/-- `pivot_score` with its single division site made checked: the source
divides `net_burn / revenue` only after testing `revenue <= 0`. -/
def pivot_scoreChecked (inp : Inputs) (risk : RiskSummary)
    (metrics : Metrics) : Option PivotResult :=
  if inp.monthly_revenue ≤ 0 then some (pivot_score inp risk metrics)
  else (checkedDiv metrics.net_burn inp.monthly_revenue).map fun _ =>
    pivot_score inp risk metrics

/-- The compounding recurrence used by the cash-curve claims: value after
`k` monthly growth steps at rate `r`, i.e. `x0`, then `· * (1 + r)` each
month. -/
def compound (x0 r : ℚ) : ℕ → ℚ
  | 0 => x0
  | k + 1 => compound x0 r k * (1 + r)

theorem compound_eq_pow (x0 r : ℚ) (k : ℕ) :
    compound x0 r k = x0 * (1 + r) ^ k := by
  induction k with
  | zero => simp [compound]
  | succ j ih => rw [compound, ih, pow_succ]; ring

theorem compound_shift (x r : ℚ) (j : ℕ) :
    compound (x * (1 + r)) r j = compound x r (j + 1) := by
  rw [compound_eq_pow, compound_eq_pow, pow_succ]; ring

theorem simulate_steps_length (g i : ℚ) (n : ℕ) :
    ∀ cash rev cost : ℚ, (simulate_steps g i cash rev cost n).length = n := by
  induction n with
  | zero => intro cash rev cost; rfl
  | succ m ih => intro cash rev cost; simp [simulate_steps, ih]

theorem simulate_curve_get (g i : ℚ) (n : ℕ) :
    ∀ (cash rev cost : ℚ) (k : ℕ), k < n →
      (simulate_cash_curve cash rev cost g i n)[k + 1]? =
        ((simulate_cash_curve cash rev cost g i n)[k]?).map
          (fun x => x - (compound cost i k - compound rev g k)) := by
  induction n with
  | zero => intro cash rev cost k hk; omega
  | succ m ih =>
    intro cash rev cost k hk
    have hrw : simulate_cash_curve cash rev cost g i (m + 1) =
        cash :: simulate_cash_curve (cash - (cost - rev)) (rev * (1 + g))
          (cost * (1 + i)) g i m := by
      simp [simulate_cash_curve, simulate_steps]
    cases k with
    | zero =>
      simp [simulate_cash_curve, simulate_steps, compound]
    | succ j =>
      have hj : j < m := by omega
      have hfun : (fun x : ℚ => x -
            (compound (cost * (1 + i)) i j - compound (rev * (1 + g)) g j)) =
          (fun x : ℚ => x - (compound cost i (j + 1) - compound rev g (j + 1))) := by
        funext x
        rw [compound_shift, compound_shift]
      rw [hrw, List.getElem?_cons_succ, List.getElem?_cons_succ,
        ih (cash - (cost - rev)) (rev * (1 + g)) (cost * (1 + i)) j hj, hfun]

/-- C1: `burn_and_runway` computes `monthly_cost = monthly_fixed_costs +
monthly_variable_costs + (team_size + planned_hires) * avg_fully_loaded_cost_per_employee`
and `net_burn = monthly_cost - monthly_revenue`; if `net_burn ≤ 0` it
reports the infinite/profitable sentinel and `runway_months_numeric = -1`,
otherwise `runway_months = runway_months_numeric = cash_on_hand / net_burn`
with no upper clamp; and on the concrete end-to-end input (cash 1200000,
revenue 100000, fixed 50000, variable 20000, team 5, avg cost 10000,
growth 0.05) it returns monthly_cost 120000, net_burn 20000 and numeric
runway 60. -/
theorem spec_C1 (inp : Inputs) :
    burn_and_runway inp =
      { monthly_cost := monthly_total_cost inp
        net_burn := monthly_total_cost inp - inp.monthly_revenue
        runway_months :=
          if monthly_total_cost inp - inp.monthly_revenue ≤ 0 then .infinite
          else .finite (inp.cash_on_hand /
            (monthly_total_cost inp - inp.monthly_revenue))
        runway_months_numeric :=
          if monthly_total_cost inp - inp.monthly_revenue ≤ 0 then -1
          else inp.cash_on_hand /
            (monthly_total_cost inp - inp.monthly_revenue) } ∧
    monthly_total_cost inp =
      inp.monthly_fixed_costs + inp.monthly_variable_costs +
        ((inp.team_size + inp.planned_hires : ℤ) : ℚ) *
          inp.avg_fully_loaded_cost_per_employee ∧
    burn_and_runway ⟨1200000, 100000, 50000, 20000, 5, 10000, 0.05, 0⟩ =
      ⟨120000, 20000, .finite 60, 60⟩ := by
  refine ⟨?_, rfl, by
    norm_num [burn_and_runway, monthly_total_cost, Metrics.mk.injEq,
      Runway.finite.injEq]⟩
  simp only [burn_and_runway]
  split
  next h => simp [h]
  next h => simp [h]

/-- C2: `simulate_cash_curve` returns a list of length `months + 1` whose
element 0 is `cash0` and whose element `k + 1` equals element `k` minus
`(cost_k - rev_k)`, where `rev_k` and `cost_k` start at `rev0`/`cost0` and
are multiplied by `(1 + growth_mom)` / `(1 + cost_infl_mom)` each month;
in particular `simulate_cash_curve 100 50 80 0 0 3 = [100, 70, 40, 10]`. -/
theorem spec_C2 (cash0 rev0 cost0 growth_mom cost_infl_mom : ℚ) (months : ℕ) :
    (simulate_cash_curve cash0 rev0 cost0 growth_mom cost_infl_mom months).length =
      months + 1 ∧
    (simulate_cash_curve cash0 rev0 cost0 growth_mom cost_infl_mom months)[0]? =
      some cash0 ∧
    (∀ k, k < months →
      (simulate_cash_curve cash0 rev0 cost0 growth_mom cost_infl_mom months)[k + 1]? =
        ((simulate_cash_curve cash0 rev0 cost0 growth_mom cost_infl_mom months)[k]?).map
          (fun x => x - (compound cost0 cost_infl_mom k - compound rev0 growth_mom k))) ∧
    simulate_cash_curve 100 50 80 0 0 3 = [100, 70, 40, 10] := by
  refine ⟨?_, by simp [simulate_cash_curve],
    fun k hk => simulate_curve_get growth_mom cost_infl_mom months
      cash0 rev0 cost0 k hk, by norm_num [simulate_cash_curve, simulate_steps]⟩
  simp [simulate_cash_curve, simulate_steps_length]

/-- Witness for C2: the step relation instantiated at the concrete spec
example, month 0 to month 1. -/
theorem spec_C2_witness :
    (simulate_cash_curve 100 50 80 0 0 3)[0 + 1]? =
      ((simulate_cash_curve 100 50 80 0 0 3)[0]?).map
        (fun x => x - (compound 80 0 0 - compound 50 0 0)) :=
  (spec_C2 100 50 80 0 0 3).2.2.1 0 (by decide)

theorem foldl_min_le (xs : List ℚ) : ∀ a x : ℚ, x ∈ a :: xs → xs.foldl min a ≤ x := by
  induction xs with
  | nil =>
    intro a x hx
    simp only [List.mem_singleton] at hx
    simp [hx]
  | cons b t ih =>
    intro a x hx
    rw [List.foldl_cons]
    rcases List.mem_cons.mp hx with rfl | h2
    · calc t.foldl min (min x b) ≤ min x b := ih _ _ (List.mem_cons_self _ _)
        _ ≤ x := min_le_left _ _
    · rcases List.mem_cons.mp h2 with rfl | h4
      · calc t.foldl min (min a x) ≤ min a x := ih _ _ (List.mem_cons_self _ _)
          _ ≤ x := min_le_right _ _
      · exact ih _ x (List.mem_cons_of_mem _ h4)

theorem foldl_min_mem (xs : List ℚ) : ∀ a : ℚ, xs.foldl min a ∈ a :: xs := by
  induction xs with
  | nil => intro a; simp
  | cons b t ih =>
    intro a
    rw [List.foldl_cons]
    rcases List.mem_cons.mp (ih (min a b)) with h1 | h2
    · rcases min_choice a b with h | h
      · rw [h1, h]; exact List.mem_cons_self _ _
      · rw [h1, h]; exact List.mem_cons_of_mem _ (List.mem_cons_self _ _)
    · exact List.mem_cons_of_mem _ (List.mem_cons_of_mem _ h2)

theorem listMin_le {l : List ℚ} {x : ℚ} (hx : x ∈ l) : listMin l ≤ x := by
  cases l with
  | nil => simp at hx
  | cons a t => exact foldl_min_le t a x hx

theorem listMin_mem {l : List ℚ} (h : l ≠ []) : listMin l ∈ l := by
  cases l with
  | nil => simp at h
  | cons a t => exact foldl_min_mem t a

theorem scenario_mem_props (inp : Inputs) (months : ℕ) (s : Scenario)
    (hs : s ∈ scenario_analysis inp months) :
    s.cash_curve = simulate_cash_curve inp.cash_on_hand inp.monthly_revenue
      (monthly_total_cost inp) s.growth_mom s.cost_inflation_mom months ∧
    s.cash_curve.length = months + 1 ∧
    s.cash_curve[0]? = some inp.cash_on_hand ∧
    s.cash_end = s.cash_curve.getLastD 0 ∧
    s.min_cash ∈ s.cash_curve ∧
    (∀ x ∈ s.cash_curve, s.min_cash ≤ x) ∧
    (s.goes_negative = true ↔ s.min_cash < 0) := by
  simp only [scenario_analysis, List.mem_map] at hs
  rcases hs with ⟨t, ht, rfl⟩
  refine ⟨rfl, ?_, ?_, rfl, ?_, ?_, ?_⟩
  · simp [simulate_cash_curve, simulate_steps_length]
  · simp [simulate_cash_curve]
  · exact listMin_mem (by simp [simulate_cash_curve])
  · exact fun x hx => listMin_le hx
  · simp

/-- C4: `scenario_analysis` returns exactly 3 scenarios in the fixed order
optimistic, base, pessimistic with (growth, cost inflation) pairs
(1.25*g, 0.01), (g, 0.02), (0.60*g, 0.04); each scenario's curve is the
cash curve from current cash with the once-computed monthly cost (planned
hires included), has length months+1, starts at cash_on_hand, and its
cash_end is the last element, min_cash the minimum over the whole curve
(a member that bounds every element from below), and goes_negative holds
exactly when min_cash < 0. -/
theorem spec_C4 (inp : Inputs) (months : ℕ) :
    (scenario_analysis inp months).map Scenario.name =
      ["optimistic", "base", "pessimistic"] ∧
    (scenario_analysis inp months).map
        (fun s => (s.growth_mom, s.cost_inflation_mom)) =
      [(inp.revenue_growth_rate_mom * 1.25, 0.01),
       (inp.revenue_growth_rate_mom, 0.02),
       (inp.revenue_growth_rate_mom * 0.60, 0.04)] ∧
    ∀ s ∈ scenario_analysis inp months,
      s.cash_curve = simulate_cash_curve inp.cash_on_hand inp.monthly_revenue
        (monthly_total_cost inp) s.growth_mom s.cost_inflation_mom months ∧
      s.cash_curve.length = months + 1 ∧
      s.cash_curve[0]? = some inp.cash_on_hand ∧
      s.cash_end = s.cash_curve.getLastD 0 ∧
      s.min_cash ∈ s.cash_curve ∧
      (∀ x ∈ s.cash_curve, s.min_cash ≤ x) ∧
      (s.goes_negative = true ↔ s.min_cash < 0) :=
  ⟨by simp [scenario_analysis], by simp [scenario_analysis],
   fun s hs => scenario_mem_props inp months s hs⟩

/-- Witness for C4: the optimistic scenario of the all-zero inputs with a
one-month horizon has a curve of length 2. -/
theorem spec_C4_witness :
    (⟨"optimistic", 0, 0.01, [0, 0], 0, 0, false⟩ : Scenario).cash_curve.length =
      1 + 1 :=
  ((spec_C4 ⟨0, 0, 0, 0, 0, 0, 0, 0⟩ 1).2.2
    ⟨"optimistic", 0, 0.01, [0, 0], 0, 0, false⟩
    (by norm_num [scenario_analysis, simulate_cash_curve, simulate_steps,
      monthly_total_cost, listMin])).2.1

theorem neg_within_mono {t : MCState} {j k : ℕ} (hjk : j ≤ k)
    (h : neg_within t j = true) : neg_within t k = true := by
  rcases hfn : t.first_neg with _ | m <;>
    simp only [neg_within, hfn] at h ⊢
  · exact absurd h (by simp)
  · simp only [decide_eq_true_eq] at h ⊢
    omega

theorem neg_within_isSome {t : MCState} {k : ℕ} (h : neg_within t k = true) :
    t.first_neg.isSome = true := by
  rcases hfn : t.first_neg with _ | m
  · simp only [neg_within, hfn] at h
    exact absurd h (by simp)
  · simp [hfn]

/-- C5: for every input, horizon and sample sequence with at least one
trial, the Monte Carlo probabilities are monotone:
p_cash_negative_within_3_months ≤ p_cash_negative_within_6_months ≤
p_cash_negative_within_horizon. -/
theorem spec_C5 (inp : Inputs) (months : ℕ) (samples : List (ℚ × ℚ))
    (hruns : 1 ≤ samples.length) :
    (monte_carlo_risk inp months samples).p_cash_negative_within_3_months ≤
      (monte_carlo_risk inp months samples).p_cash_negative_within_6_months ∧
    (monte_carlo_risk inp months samples).p_cash_negative_within_6_months ≤
      (monte_carlo_risk inp months samples).p_cash_negative_within_horizon := by
  have hpos : (0 : ℚ) < (samples.length : ℚ) := by
    exact_mod_cast Nat.lt_of_lt_of_le Nat.zero_lt_one hruns
  simp only [monte_carlo_risk]
  constructor
  · rw [div_le_div_iff_of_pos_right hpos]
    exact_mod_cast List.countP_mono_left fun t _ h =>
      neg_within_mono (by omega) h
  · rw [div_le_div_iff_of_pos_right hpos]
    exact_mod_cast List.countP_mono_left fun t _ h => neg_within_isSome h

/-- Witness for C5 at a concrete single-sample run. -/
theorem spec_C5_witness :
    (monte_carlo_risk ⟨0, 0, 0, 0, 0, 0, 0, 0⟩ 1
        [(0, 0)]).p_cash_negative_within_3_months ≤
      (monte_carlo_risk ⟨0, 0, 0, 0, 0, 0, 0, 0⟩ 1
        [(0, 0)]).p_cash_negative_within_6_months ∧
    (monte_carlo_risk ⟨0, 0, 0, 0, 0, 0, 0, 0⟩ 1
        [(0, 0)]).p_cash_negative_within_6_months ≤
      (monte_carlo_risk ⟨0, 0, 0, 0, 0, 0, 0, 0⟩ 1
        [(0, 0)]).p_cash_negative_within_horizon :=
  spec_C5 ⟨0, 0, 0, 0, 0, 0, 0, 0⟩ 1 [(0, 0)] (by simp)

theorem mc_hbe_preserved (g infl : ℚ) (l : List ℕ) :
    ∀ s : MCState, s.hit_break_even = true →
      (l.foldl (mc_step g infl) s).hit_break_even = true := by
  induction l with
  | nil => intro s hs; exact hs
  | cons a t ih =>
    intro s hs
    rw [List.foldl_cons]
    exact ih _ (by simp [mc_step, hs])

theorem run_trial_hbe (inp : Inputs) (months : ℕ) (g infl : ℚ)
    (hbe : monthly_total_cost inp ≤ inp.monthly_revenue) (hm : 1 ≤ months) :
    (run_trial inp months g infl).hit_break_even = true := by
  obtain ⟨m, rfl⟩ : ∃ m, months = m + 1 := ⟨months - 1, by omega⟩
  unfold run_trial
  rw [show List.range' 1 (m + 1) = 1 :: List.range' 2 m from rfl,
    List.foldl_cons]
  exact mc_hbe_preserved g infl _ _ (by simp [mc_step, sub_nonneg, hbe])

/-- C10: if monthly revenue already covers the monthly total cost, every
Monte Carlo trial records break-even in month 1 (the comparison uses the
month's revenue and cost before compounding), so for any horizon ≥ 1 and
any nonempty sample sequence `p_break_even_within_horizon = 1`. -/
theorem spec_C10 (inp : Inputs) (months : ℕ) (samples : List (ℚ × ℚ))
    (hbe : monthly_total_cost inp ≤ inp.monthly_revenue)
    (hm : 1 ≤ months) (hruns : 1 ≤ samples.length) :
    (monte_carlo_risk inp months samples).p_break_even_within_horizon = 1 := by
  have hc : (samples.map fun p => run_trial inp months p.1 p.2).countP
      (fun t => t.hit_break_even) = samples.length := by
    rw [List.countP_eq_length.mpr, List.length_map]
    intro t ht
    rcases List.mem_map.mp ht with ⟨p, hp, rfl⟩
    exact run_trial_hbe inp months p.1 p.2 hbe hm
  have hne : (samples.length : ℚ) ≠ 0 := by
    have : 0 < samples.length := by omega
    exact_mod_cast Nat.pos_iff_ne_zero.mp this
  simp only [monte_carlo_risk, hc]
  exact div_self hne

/-- Witness for C10 at a concrete profitable input. -/
theorem spec_C10_witness :
    (monte_carlo_risk ⟨100, 50, 10, 10, 2, 10, 0, 0⟩ 1
      [(0, 0)]).p_break_even_within_horizon = 1 :=
  spec_C10 ⟨100, 50, 10, 10, 2, 10, 0, 0⟩ 1 [(0, 0)]
    (by norm_num [monthly_total_cost]) (by norm_num) (by simp)

/-- The overwrite condition actually tested by the `safe_hires_suggestion`
loop for candidate `h`: `runway_months_numeric < 0` (recorded "infinite"),
or the numeric runway meets the threshold. -/
def code_accept (inp : Inputs) (min_runway_months : ℚ) (h : ℕ) : Bool :=
  decide ((burn_and_runway { inp with planned_hires := (h : ℤ) }).runway_months_numeric < 0) ||
  decide (min_runway_months ≤
    (burn_and_runway { inp with planned_hires := (h : ℤ) }).runway_months_numeric)

/-- The runway recorded by the loop when it accepts candidate `h`. -/
def mark_for (inp : Inputs) (h : ℕ) : RunwayMark :=
  if (burn_and_runway { inp with planned_hires := (h : ℤ) }).runway_months_numeric < 0
  then .infinite
  else .finite (burn_and_runway { inp with planned_hires := (h : ℤ) }).runway_months_numeric

theorem hires_step_eq (inp : Inputs) (mr : ℚ) (acc : ℕ × RunwayMark) (h : ℕ) :
    hires_step inp mr acc h =
      if code_accept inp mr h = true then (h, mark_for inp h) else acc := by
  simp only [hires_step, code_accept, mark_for, Bool.or_eq_true, decide_eq_true_eq]
  by_cases h1 : (burn_and_runway
      { inp with planned_hires := (h : ℤ) }).runway_months_numeric < 0
  · simp [h1]
  · by_cases h2 : mr ≤ (burn_and_runway
        { inp with planned_hires := (h : ℤ) }).runway_months_numeric
    · simp [h1, h2]
    · simp [h1, h2]

theorem foldl_overwrite_last {α β : Type} (p : α → Bool) (f : α → β) :
    ∀ (l : List α) (acc : β),
      l.foldl (fun a h => if p h = true then f h else a) acc =
        ((l.filter p).getLast?).elim acc f := by
  intro l
  induction l with
  | nil => intro acc; rfl
  | cons a t ih =>
    intro acc
    rw [List.foldl_cons, ih, List.filter_cons]
    by_cases hpa : p a = true
    · simp only [hpa, if_true]
      rcases hft : t.filter p with _ | ⟨b, u⟩
      · simp
      · obtain ⟨y, hy⟩ : ∃ y, (b :: u).getLast? = some y := by
          rcases hg : (b :: u).getLast? with _ | y
          · exact absurd (List.getLast?_eq_none_iff.mp hg) (by simp)
          · exact ⟨y, rfl⟩
        rw [List.getLast?_cons_cons, hy]
        rfl
    · simp only [if_neg hpa]

theorem safe_hires_foldl (inp : Inputs) (mr : ℚ) :
    (List.range 21).foldl (hires_step inp mr) (0, RunwayMark.unknown) =
      (((List.range 21).filter (code_accept inp mr)).getLast?).elim
        (0, RunwayMark.unknown) (fun h => (h, mark_for inp h)) := by
  have hstep : hires_step inp mr = fun acc h =>
      if code_accept inp mr h = true then (h, mark_for inp h) else acc := by
    funext acc h
    exact hires_step_eq inp mr acc h
  rw [hstep]
  exact foldl_overwrite_last (code_accept inp mr)
    (fun h => (h, mark_for inp h)) (List.range 21) (0, RunwayMark.unknown)

theorem le_getLast_of_pairwise_le : ∀ l : List ℕ, l.Pairwise (· ≤ ·) →
    ∀ x ∈ l, ∀ m, l.getLast? = some m → x ≤ m := by
  intro l
  induction l with
  | nil => intro _ x hx; simp at hx
  | cons a t ih =>
    intro hp x hx m hm
    rcases t with _ | ⟨b, u⟩
    · simp only [List.getLast?_singleton, Option.some.injEq] at hm
      simp only [List.mem_singleton] at hx
      omega
    · rw [List.getLast?_cons_cons] at hm
      rcases List.mem_cons.mp hx with rfl | hx2
      · exact (List.pairwise_cons.mp hp).1 m (List.mem_of_getLast?_eq_some hm)
      · exact ih (List.pairwise_cons.mp hp).2 x hx2 m hm

/-- The acceptance condition exactly as claim C3 words it: the derived
metrics for candidate `h` give an infinite runway, or a finite runway that
is at least `min_runway_months`. -/
def claim_accept (inp : Inputs) (min_runway_months : ℚ) (h : ℕ) : Bool :=
  match (burn_and_runway { inp with planned_hires := (h : ℤ) }).runway_months with
  | .infinite => true
  | .finite q => decide (min_runway_months ≤ q)

/-- Counterexample to C3 as stated: with cash_on_hand = -100, revenue 0,
fixed costs 100 and zero per-employee cost, every candidate has a finite
runway of -1 month (net burn 100 > 0), so no candidate satisfies the
claim's acceptance condition (no infinite runway, and -1 < 9); the claim
then demands safe_hires_now = 0 with the "unknown" marker, but the code
tests `runway_months_numeric < 0`, accepts every candidate as "infinite",
and returns 20 with the "infinite" marker. -/
theorem spec_C3_counterexample :
    ((List.range 21).all fun h =>
      !claim_accept ⟨-100, 0, 100, 0, 0, 0, 0, 0⟩ 9 h) = true ∧
    (safe_hires_suggestion ⟨-100, 0, 100, 0, 0, 0, 0, 0⟩ 9).safe_hires_now = 20 ∧
    (safe_hires_suggestion ⟨-100, 0, 100, 0, 0, 0, 0, 0⟩ 9).resulting_runway_months =
      RunwayMark.infinite := by
  have hca : ∀ h : ℕ, claim_accept ⟨-100, 0, 100, 0, 0, 0, 0, 0⟩ 9 h = false := by
    intro h
    norm_num [claim_accept, burn_and_runway, monthly_total_cost]
  have hcc : ∀ h : ℕ, code_accept ⟨-100, 0, 100, 0, 0, 0, 0, 0⟩ 9 h = true := by
    intro h
    norm_num [code_accept, burn_and_runway, monthly_total_cost]
  have hfacts : safe_hires_suggestion ⟨-100, 0, 100, 0, 0, 0, 0, 0⟩ 9 =
      ⟨9, 20, mark_for ⟨-100, 0, 100, 0, 0, 0, 0, 0⟩ 20⟩ := by
    simp only [safe_hires_suggestion]
    rw [safe_hires_foldl, List.filter_eq_self.mpr fun a _ => hcc a,
      show (List.range 21).getLast? = some 20 from rfl]
    rfl
  refine ⟨?_, ?_, ?_⟩
  · simp only [List.all_eq_true]
    intro h _
    simp [hca h]
  · rw [hfacts]
  · rw [hfacts]
    norm_num [mark_for, burn_and_runway, monthly_total_cost]

/-- C3 (amended): `safe_hires_suggestion` scans candidates 0..20 in
ascending order without stopping early and returns the last (i.e. maximum)
candidate whose `runway_months_numeric` is negative (recorded as
"infinite") or at least `min_runway_months` (recorded as that numeric
runway); if no candidate in 0..20 satisfies either condition it returns 0
with the "unknown" marker.  (Amendment: the accepted "infinite" case is
the code's numeric test `runway_months_numeric < 0`, which coincides with
a truly infinite runway only when `cash_on_hand ≥ 0`.) -/
theorem spec_C3_amended (inp : Inputs) (mr : ℚ) :
    (safe_hires_suggestion inp mr).min_required_runway_months = mr ∧
    ((∀ h, h < 21 → code_accept inp mr h = false) →
      (safe_hires_suggestion inp mr).safe_hires_now = 0 ∧
      (safe_hires_suggestion inp mr).resulting_runway_months = .unknown) ∧
    (∀ h, h < 21 → code_accept inp mr h = true →
      code_accept inp mr (safe_hires_suggestion inp mr).safe_hires_now = true ∧
      h ≤ (safe_hires_suggestion inp mr).safe_hires_now ∧
      (safe_hires_suggestion inp mr).safe_hires_now < 21 ∧
      (safe_hires_suggestion inp mr).resulting_runway_months =
        mark_for inp (safe_hires_suggestion inp mr).safe_hires_now) := by
  refine ⟨rfl, ?_, ?_⟩
  · intro hnone
    have hfe : (List.range 21).filter (code_accept inp mr) = [] := by
      rw [List.filter_eq_nil_iff]
      intro a ha
      simp [hnone a (List.mem_range.mp ha)]
    have hfacts : safe_hires_suggestion inp mr = ⟨mr, 0, .unknown⟩ := by
      simp only [safe_hires_suggestion]
      rw [safe_hires_foldl, hfe]
      rfl
    rw [hfacts]
    exact ⟨rfl, rfl⟩
  · intro h hh hacc
    have hmem : h ∈ (List.range 21).filter (code_accept inp mr) :=
      List.mem_filter.mpr ⟨List.mem_range.mpr hh, hacc⟩
    obtain ⟨m, hm⟩ : ∃ m,
        ((List.range 21).filter (code_accept inp mr)).getLast? = some m := by
      rcases hL2 : ((List.range 21).filter (code_accept inp mr)).getLast? with _ | m
      · exact absurd (List.getLast?_eq_none_iff.mp hL2) (List.ne_nil_of_mem hmem)
      · exact ⟨m, rfl⟩
    have hmL : m ∈ (List.range 21).filter (code_accept inp mr) :=
      List.mem_of_getLast?_eq_some hm
    have hfacts : safe_hires_suggestion inp mr = ⟨mr, m, mark_for inp m⟩ := by
      simp only [safe_hires_suggestion]
      rw [safe_hires_foldl, hm]
      rfl
    rw [hfacts]
    refine ⟨(List.mem_filter.mp hmL).2, ?_,
      List.mem_range.mp (List.mem_filter.mp hmL).1, rfl⟩
    exact le_getLast_of_pairwise_le _
      (List.Pairwise.sublist (List.filter_sublist _)
        ((List.pairwise_le_range 21).imp fun hab => hab))
      h hmem m hm

/-- Witness for C3 (amended): with cash 100, revenue 0, fixed costs 100,
zero per-employee cost and threshold 1, every candidate has numeric runway
1 ≥ 1, so candidate 0 is accepted and the returned best is accepted,
maximal and below 21. -/
theorem spec_C3_witness :
    code_accept ⟨100, 0, 100, 0, 0, 0, 0, 0⟩ 1
      (safe_hires_suggestion ⟨100, 0, 100, 0, 0, 0, 0, 0⟩ 1).safe_hires_now = true ∧
    0 ≤ (safe_hires_suggestion ⟨100, 0, 100, 0, 0, 0, 0, 0⟩ 1).safe_hires_now ∧
    (safe_hires_suggestion ⟨100, 0, 100, 0, 0, 0, 0, 0⟩ 1).safe_hires_now < 21 ∧
    (safe_hires_suggestion ⟨100, 0, 100, 0, 0, 0, 0, 0⟩ 1).resulting_runway_months =
      mark_for ⟨100, 0, 100, 0, 0, 0, 0, 0⟩
        (safe_hires_suggestion ⟨100, 0, 100, 0, 0, 0, 0, 0⟩ 1).safe_hires_now :=
  (spec_C3_amended ⟨100, 0, 100, 0, 0, 0, 0, 0⟩ 1).2.2 0 (by norm_num)
    (by norm_num [code_accept, burn_and_runway, monthly_total_cost])

/-- C6: for any Inputs, any metrics and any risk summary (whose
probability fields are, per the data model, nonnegative — only the
nonnegativity of the two weighted probabilities is needed), the returned
pivot_score lies in [0, 100]. -/
theorem spec_C6 (inp : Inputs) (risk : RiskSummary) (metrics : Metrics)
    (h6 : 0 ≤ risk.p_cash_negative_within_6_months)
    (h12 : 0 ≤ risk.p_cash_negative_within_horizon) :
    0 ≤ (pivot_score inp risk metrics).pivot_score ∧
    (pivot_score inp risk metrics).pivot_score ≤ 100 := by
  simp only [pivot_score]
  refine ⟨le_min (by norm_num) ?_, min_le_left _ _⟩
  have hbr : (0 : ℚ) ≤ if inp.monthly_revenue ≤ 0 then 0
      else max 0 (metrics.net_burn / inp.monthly_revenue) := by
    split
    · exact le_refl 0
    · exact le_max_left _ _
  refine add_nonneg (add_nonneg (add_nonneg (add_nonneg ?_ ?_) ?_) ?_) ?_
  · exact mul_nonneg (by norm_num) h6
  · exact mul_nonneg (by norm_num) h12
  · exact le_min (by norm_num) (mul_nonneg (by norm_num) hbr)
  · split <;> norm_num
  · split <;> norm_num

/-- Witness for C6 at an all-zero risk summary. -/
theorem spec_C6_witness :
    0 ≤ (pivot_score ⟨0, 0, 0, 0, 0, 0, 0, 0⟩ ⟨1, 0, 0, 0, 0⟩
      ⟨0, 0, .infinite, -1⟩).pivot_score ∧
    (pivot_score ⟨0, 0, 0, 0, 0, 0, 0, 0⟩ ⟨1, 0, 0, 0, 0⟩
      ⟨0, 0, .infinite, -1⟩).pivot_score ≤ 100 :=
  spec_C6 ⟨0, 0, 0, 0, 0, 0, 0, 0⟩ ⟨1, 0, 0, 0, 0⟩ ⟨0, 0, .infinite, -1⟩
    (le_refl 0) (le_refl 0)

/-- C9: with identical Inputs and metrics, and risk summaries that differ
only in p_cash_negative_within_6_months, a larger value of that
probability never decreases the returned pivot_score. -/
theorem spec_C9 (inp : Inputs) (metrics : Metrics) (risk : RiskSummary)
    (q : ℚ) (hq : risk.p_cash_negative_within_6_months ≤ q) :
    (pivot_score inp risk metrics).pivot_score ≤
      (pivot_score inp { risk with p_cash_negative_within_6_months := q }
        metrics).pivot_score := by
  simp only [pivot_score]
  refine min_le_min (le_refl 100) ?_
  have h60 : 60 * risk.p_cash_negative_within_6_months ≤ 60 * q :=
    mul_le_mul_of_nonneg_left hq (by norm_num)
  exact add_le_add_right (add_le_add_right (add_le_add_right
    (add_le_add_right h60 _) _) _) _

/-- Witness for C9: raising the 6-month probability from 0 to 1 with
every other factor fixed. -/
theorem spec_C9_witness :
    (pivot_score ⟨0, 0, 0, 0, 0, 0, 0, 0⟩ ⟨1, 0, 0, 0, 0⟩
      ⟨0, 0, .infinite, -1⟩).pivot_score ≤
    (pivot_score ⟨0, 0, 0, 0, 0, 0, 0, 0⟩
      { (⟨1, 0, 0, 0, 0⟩ : RiskSummary) with
        p_cash_negative_within_6_months := 1 }
      ⟨0, 0, .infinite, -1⟩).pivot_score :=
  spec_C9 ⟨0, 0, 0, 0, 0, 0, 0, 0⟩ ⟨0, 0, .infinite, -1⟩ ⟨1, 0, 0, 0, 0⟩ 1
    (by norm_num)

/-- Counterexample to C7 as stated: with cash 1000, revenue 0 and fixed
costs 100 (net burn 100 > 0), `revenue_sensitivity` at
target_runway_months = 0 reaches the division
`cash_on_hand / target_runway_months` with a zero divisor (the source
raises ZeroDivisionError; the checked embedding returns none). -/
theorem spec_C7_counterexample :
    (0 : ℚ) < monthly_total_cost ⟨1000, 0, 100, 0, 0, 0, 0, 0⟩ -
      (⟨1000, 0, 100, 0, 0, 0, 0, 0⟩ : Inputs).monthly_revenue ∧
    revenue_sensitivity ⟨1000, 0, 100, 0, 0, 0, 0, 0⟩ 0 = none := by
  constructor
  · norm_num [monthly_total_cost]
  · norm_num [revenue_sensitivity, checkedDiv, monthly_total_cost]

/-- C7 (amended): assuming the caller preconditions `runs ≥ 1` (nonempty
sample sequence) and `target_runway_months ≠ 0`, no division in the
engine has a zero divisor: the runway division of `burn_and_runway` only
happens when net_burn > 0 (the checked mirror always succeeds and agrees
with the total embedding), Monte Carlo aggregation divides only by `runs`,
`revenue_sensitivity` divides by the nonzero target, and `pivot_score`
divides by revenue only when revenue > 0. -/
theorem spec_C7_amended (inp : Inputs) (risk : RiskSummary)
    (metrics : Metrics) (months : ℕ) (target : ℚ)
    (samples : List (ℚ × ℚ)) (htarget : target ≠ 0) (hruns : samples ≠ []) :
    burn_and_runwayChecked inp = some (burn_and_runway inp) ∧
    (revenue_sensitivity inp target).isSome = true ∧
    monte_carlo_riskChecked inp months samples =
      some (monte_carlo_risk inp months samples) ∧
    pivot_scoreChecked inp risk metrics =
      some (pivot_score inp risk metrics) := by
  refine ⟨?_, ?_, ?_, ?_⟩
  · simp only [burn_and_runwayChecked, burn_and_runway]
    split
    · rfl
    · next hn =>
      have : monthly_total_cost inp - inp.monthly_revenue ≠ 0 :=
        ne_of_gt (lt_of_not_le hn)
      simp [checkedDiv, this]
  · simp only [revenue_sensitivity]
    split
    · rfl
    · simp [checkedDiv, htarget]
  · simp [monte_carlo_riskChecked, List.length_eq_zero, hruns]
  · simp only [pivot_scoreChecked]
    split
    · rfl
    · next hn =>
      have : inp.monthly_revenue ≠ 0 := ne_of_gt (lt_of_not_le hn)
      simp [checkedDiv, this]

/-- Witness for C7 (amended) at concrete arguments. -/
theorem spec_C7_witness :
    burn_and_runwayChecked ⟨0, 0, 0, 0, 0, 0, 0, 0⟩ =
      some (burn_and_runway ⟨0, 0, 0, 0, 0, 0, 0, 0⟩) ∧
    (revenue_sensitivity ⟨0, 0, 0, 0, 0, 0, 0, 0⟩ 12).isSome = true ∧
    monte_carlo_riskChecked ⟨0, 0, 0, 0, 0, 0, 0, 0⟩ 1 [(0, 0)] =
      some (monte_carlo_risk ⟨0, 0, 0, 0, 0, 0, 0, 0⟩ 1 [(0, 0)]) ∧
    pivot_scoreChecked ⟨0, 0, 0, 0, 0, 0, 0, 0⟩ ⟨1, 0, 0, 0, 0⟩
        ⟨0, 0, .infinite, -1⟩ =
      some (pivot_score ⟨0, 0, 0, 0, 0, 0, 0, 0⟩ ⟨1, 0, 0, 0, 0⟩
        ⟨0, 0, .infinite, -1⟩) :=
  spec_C7_amended ⟨0, 0, 0, 0, 0, 0, 0, 0⟩ ⟨1, 0, 0, 0, 0⟩
    ⟨0, 0, .infinite, -1⟩ 1 12 [(0, 0)] (by norm_num) (by simp)

/-- Counterexample to C8 as stated: with net burn 80 > 0 and
target_runway_months = 0, `revenue_sensitivity` does not return the
claimed record — the source raises ZeroDivisionError (checked embedding:
none). -/
theorem spec_C8_counterexample :
    (0 : ℚ) < monthly_total_cost ⟨600, 50, 80, 20, 1, 30, 0, 0⟩ -
      (⟨600, 50, 80, 20, 1, 30, 0, 0⟩ : Inputs).monthly_revenue ∧
    revenue_sensitivity ⟨600, 50, 80, 20, 1, 30, 0, 0⟩ 0 = none := by
  constructor
  · norm_num [monthly_total_cost]
  · norm_num [revenue_sensitivity, checkedDiv, monthly_total_cost]

/-- C8 (amended): whenever net burn ≤ 0, `revenue_sensitivity` returns
extra revenue 0 with the already-break-even status for every target;
otherwise, for every target_runway_months ≠ 0 it returns
`max 0 (net_burn - cash_on_hand / target)` with the burning-cash status;
in both cases monthly_revenue_needed_for_break_even is the current
monthly total cost.  (Amendment: the otherwise-branch needs
target_runway_months ≠ 0; at a zero target the source raises
ZeroDivisionError instead of returning.) -/
theorem spec_C8_amended (inp : Inputs) (target : ℚ) :
    (monthly_total_cost inp - inp.monthly_revenue ≤ 0 →
      revenue_sensitivity inp target = some
        { target_runway_months := target
          extra_monthly_revenue_needed_for_target_runway := 0
          monthly_revenue_needed_for_break_even := monthly_total_cost inp
          status := "Already break-even/profitable" }) ∧
    (0 < monthly_total_cost inp - inp.monthly_revenue → target ≠ 0 →
      revenue_sensitivity inp target = some
        { target_runway_months := target
          extra_monthly_revenue_needed_for_target_runway :=
            max 0 (monthly_total_cost inp - inp.monthly_revenue -
              inp.cash_on_hand / target)
          monthly_revenue_needed_for_break_even := monthly_total_cost inp
          status := "Burning cash" }) := by
  constructor
  · intro h
    simp [revenue_sensitivity, h]
  · intro h ht
    have hn : ¬(monthly_total_cost inp - inp.monthly_revenue ≤ 0) :=
      not_le.mpr h
    simp [revenue_sensitivity, hn, checkedDiv, ht]

/-- Witness for C8 (amended): both branches at concrete inputs — a
profitable input with any target, and a burning input with target 12. -/
theorem spec_C8_witness :
    revenue_sensitivity ⟨0, 100, 0, 0, 0, 0, 0, 0⟩ 12 = some
      { target_runway_months := 12
        extra_monthly_revenue_needed_for_target_runway := 0
        monthly_revenue_needed_for_break_even :=
          monthly_total_cost ⟨0, 100, 0, 0, 0, 0, 0, 0⟩
        status := "Already break-even/profitable" } ∧
    revenue_sensitivity ⟨1200, 0, 100, 0, 0, 0, 0, 0⟩ 12 = some
      { target_runway_months := 12
        extra_monthly_revenue_needed_for_target_runway :=
          max 0 (monthly_total_cost ⟨1200, 0, 100, 0, 0, 0, 0, 0⟩ -
            (⟨1200, 0, 100, 0, 0, 0, 0, 0⟩ : Inputs).monthly_revenue -
            (⟨1200, 0, 100, 0, 0, 0, 0, 0⟩ : Inputs).cash_on_hand / 12)
        monthly_revenue_needed_for_break_even :=
          monthly_total_cost ⟨1200, 0, 100, 0, 0, 0, 0, 0⟩
        status := "Burning cash" } :=
  ⟨(spec_C8_amended ⟨0, 100, 0, 0, 0, 0, 0, 0⟩ 12).1
      (by norm_num [monthly_total_cost]),
   (spec_C8_amended ⟨1200, 0, 100, 0, 0, 0, 0, 0⟩ 12).2
      (by norm_num [monthly_total_cost]) (by norm_num)⟩

end CapitalSense
